import Mathlib

/-!
# Verification of the DSP filter-chain frequency-response analysis

Shallow embedding of `frequency_response_analysis.py`: the three filter
stages (pre-emphasis, 19 kHz notch, polyphase FIR upsampler), cascade
composition, passband-ripple metrics, the flatness quality classifier and
the dominant-contributor ranking.

Discrete/order-theoretic computations (band selection, max/min/mean,
classification thresholds, tuple sorting) are embedded over `ℚ` — every
IEEE double is a rational, and these operations involve only field
arithmetic and comparisons — so that concrete runs are decidable.
Transcendental computations (complex frequency responses, logarithms,
window design) are embedded over `ℝ`/`ℂ`.
-/

namespace FreqResp

/-! ## Quality classifier (main, lines 379-388) -/

/-- The five flatness grades printed by `main`. -/
inductive QualityGrade where
  | EXCELLENT
  | VERY_GOOD
  | GOOD
  | FAIR
  | POOR
deriving DecidableEq, Repr

/-- Embedding of the `if ripple_db < 0.1: quality = "EXCELLENT" / elif ... / else`
chain in `main` (lines 379-388). -/
def classifyQuality (ripple_db : ℚ) : QualityGrade :=
  if ripple_db < 0.1 then .EXCELLENT
  else if ripple_db < 0.5 then .VERY_GOOD
  else if ripple_db < 1.0 then .GOOD
  else if ripple_db < 2.0 then .FAIR
  else .POOR

/-! ## Error model

The script itself raises no typed errors; the failures that can occur are
untyped exceptions propagated from numpy/scipy (e.g. `ValueError` from
`np.max` on an empty array, or from scipy design routines on out-of-range
normalized frequencies).  `invalidRange`/`invalidParameter` are the typed
failures the spec postulates; they are needed to *state* the spec's claims
but are never produced by the embedded code. -/

inductive AnalysisError where
  | valueError
  | zeroDivisionError
  | invalidRange
  | invalidParameter
deriving DecidableEq, Repr

/-! ## Passband ripple (compute_passband_ripple, lines 192-220) -/

/-- Code: `idx = (frequencies >= f_min) & (frequencies <= f_max)` applied to the
(aligned) frequency and magnitude arrays, keeping `(f, mag)` pairs. -/
def passbandSelect (mag_db freqs : List ℚ) (f_min f_max : ℚ) : List (ℚ × ℚ) :=
  (freqs.zip mag_db).filter fun p => decide (f_min ≤ p.1) && decide (p.1 ≤ f_max)

/-- Code: `np.max` over a nonempty array (head-initialised fold). -/
def qmax : List ℚ → ℚ
  | [] => 0
  | x :: xs => xs.foldl max x

/-- Code: `np.min` over a nonempty array (head-initialised fold). -/
def qmin : List ℚ → ℚ
  | [] => 0
  | x :: xs => xs.foldl min x

/-- Code: `np.mean`. -/
def qmean (l : List ℚ) : ℚ := l.sum / l.length

/-- Code: `np.std` (population standard deviation, numpy default `ddof=0`):
square root of the mean squared deviation from the mean. -/
noncomputable def qstd (l : List ℚ) : ℝ :=
  Real.sqrt ((((l.map fun x => (x - qmean l) ^ 2).sum : ℚ) : ℝ) / l.length)

/-- The dictionary returned by `compute_passband_ripple` (lines 212-220).
Note: it has *no* fields for the frequencies at which the max/min occur. -/
structure RippleReport where
  ripple_db : ℚ
  mag_max_db : ℚ
  mag_min_db : ℚ
  mag_mean_db : ℚ
  mag_std_db : ℝ
  passband_freqs : List ℚ
  passband_mag_db : List ℚ

/-- Embedding of `compute_passband_ripple(mag_db, frequencies, passband_limits)`
(lines 192-220).  When the passband selection is empty, `np.max` of an empty
array raises an (untyped) `ValueError`; this is modelled as
`.error .valueError`. -/
noncomputable def compute_passband_ripple (mag_db freqs : List ℚ) (f_min f_max : ℚ) :
    Except AnalysisError RippleReport :=
  let sel := passbandSelect mag_db freqs f_min f_max
  if sel.isEmpty then .error .valueError
  else
    let pm := sel.map Prod.snd
    .ok { ripple_db := qmax pm - qmin pm
          mag_max_db := qmax pm
          mag_min_db := qmin pm
          mag_mean_db := qmean pm
          mag_std_db := qstd pm
          passband_freqs := sel.map Prod.fst
          passband_mag_db := pm }

/-- Code: `np.argmax`: index of the first occurrence of the maximum. -/
def argmaxAux : List ℚ → ℕ → ℕ → ℚ → ℕ
  | [], _, best, _ => best
  | x :: xs, i, best, bv =>
      if bv < x then argmaxAux xs (i + 1) i x else argmaxAux xs (i + 1) best bv

/-- Code: `np.argmax` over a full magnitude array (0 on an empty array). -/
def argmaxList : List ℚ → ℕ
  | [] => 0
  | x :: xs => argmaxAux xs 1 0 x

/-- Code: `freq_sweep[np.argmax(mag_sweep)]`, the frequency `main` prints as the
location of the maximum (lines 267, 354): the argmax is taken over the *full*
magnitude array, not over the passband selection. -/
def maxFreqReported (freqs mag_db : List ℚ) : ℚ := freqs.getD (argmaxList mag_db) 0

/-- Modelled from the spec: "the frequencies at which the max ... occur
(first occurrence on ties)" — the first in-band frequency whose magnitude
equals the in-band maximum. -/
def specMaxFreqInBand (mag_db freqs : List ℚ) (f_min f_max : ℚ) : Option ℚ :=
  let sel := passbandSelect mag_db freqs f_min f_max
  (sel.find? fun p => decide (p.2 = qmax (sel.map Prod.snd))).map Prod.fst

/-! ## Dominant-contributor ranking (main, lines 401-409)

`ripples` is the list of `(ripple_db, name)` pairs in original stage order;
`ripples.sort(reverse=True)` sorts the *tuples* in descending
lexicographic order: descending by ripple, and on equal ripples descending
by stage name (Python compares the string components of tied tuples). -/

/-- The stage list in original order (lines 402-406). -/
def stageRipples (r1 r2 r3 : ℚ) : List (ℚ × String) :=
  [(r1, "Pre-emphasis filter"), (r2, "Notch filter"), (r3, "Upsampler FIR")]

/-- Descending lexicographic order on `(ripple_db, name)` tuples:
`x` may precede `y` iff `x ≥ y` in the lexicographic tuple order used by
Python's `list.sort(reverse=True)`. -/
def tupleDescLe (x y : ℚ × String) : Prop :=
  y.1 < x.1 ∨ (y.1 = x.1 ∧ y.2 ≤ x.2)

instance : DecidableRel tupleDescLe := fun x y => by
  unfold tupleDescLe; infer_instance

instance : IsTotal (ℚ × String) tupleDescLe := by
  constructor
  intro a b
  rcases lt_trichotomy a.1 b.1 with h | h | h
  · exact Or.inr (Or.inl h)
  · rcases le_total a.2 b.2 with hs | hs
    · exact Or.inr (Or.inr ⟨h, hs⟩)
    · exact Or.inl (Or.inr ⟨h.symm, hs⟩)
  · exact Or.inl (Or.inl h)

instance : IsTrans (ℚ × String) tupleDescLe := by
  constructor
  intro a b c hab hbc
  rcases hab with h1 | ⟨h1, h1s⟩ <;> rcases hbc with h2 | ⟨h2, h2s⟩
  · exact Or.inl (h2.trans h1)
  · exact Or.inl (h2 ▸ h1)
  · exact Or.inl (lt_of_lt_of_le h2 (le_of_eq h1))
  · exact Or.inr ⟨h2.trans h1, h2s.trans h1s⟩

/-- Code: `ripples.sort(reverse=True)` followed by no further change: stable
descending sort of the stage tuples (lines 402-407). -/
def rankContributors (r1 r2 r3 : ℚ) : List (ℚ × String) :=
  List.insertionSort tupleDescLe (stageRipples r1 r2 r3)

/-- Modelled from the spec: "sort descending by ripple_db, ties broken by
original stage order (stable sort)" — a stable sort comparing ripple values
only. -/
def rankSpecStable (r1 r2 r3 : ℚ) : List (ℚ × String) :=
  List.insertionSort (fun x y => y.1 ≤ x.1) (stageRipples r1 r2 r3)

/-! ## Magnitude in dB

`20 * np.log10(np.abs(H))` with no clamping anywhere in the script.
numpy's `log10(0)` evaluates to `-inf`, so the dB value of an exactly-zero
magnitude is modelled as `⊥ : EReal`. -/

open Real in
/-- Code: `20 * np.log10(x)` for a (nonnegative) magnitude `x`; an exact zero
yields `-inf`. -/
noncomputable def magDB (x : ℝ) : EReal :=
  if x = 0 then ⊥ else ((20 * Real.logb 10 x : ℝ) : EReal)

/-- Modelled from the spec: "magnitude values of exactly zero (or below a
floor, e.g. 1e-15) must be clamped to a fixed floor (e.g. -300 dB) before
the logarithm is taken".  This clamped variant exists nowhere in the code. -/
noncomputable def magDBClamped (x : ℝ) : ℝ :=
  if x ≤ 1e-15 then -300 else 20 * Real.logb 10 x

/-! ## Pre-emphasis filter (PreEmphasisFilter, lines 21-49)

`H(e^jω) = gain * (1 - alpha * e^(-jω))`, `ω = 2π f / fs`; the class
hard-codes `gain = 3.0`, `alpha = 0.6592`. -/

open Real Complex in
/-- Code: `PreEmphasisFilter.frequency_response` for general `gain`/`alpha`
(the formula of line 37); the class instance uses `gain = 3`,
`alpha = 0.6592`. -/
noncomputable def preemphH (gain alpha f fs : ℝ) : ℂ :=
  let ω : ℝ := 2 * π * f / fs
  gain * (1 - alpha * Complex.exp (-Complex.I * ω))

/-- The hard-coded `self.gain = 3.0` (line 25). -/
def preemphGain : ℝ := 3

/-- The hard-coded `self.alpha = 0.6592` (line 26). -/
noncomputable def preemphAlpha : ℝ := 0.6592

/-! ## Notch filter (NotchFilter, lines 52-86)

`__init__` performs no parameter validation; it delegates the design to
`scipy.signal.iirnotch(f_notch, Q, fs)`, which normalizes
`w0 = 2*f_notch/fs`, raises an untyped `ValueError` iff `w0 > 1` or
`w0 < 0`, and otherwise derives the biquad coefficients
`b = gain*[1, -2cos(w0·π), 1]`, `a = [1, -2·gain·cos(w0·π), 2·gain-1]`
with `gain = 1/(1+beta)`, `beta = (sqrt(1-gb²)/gb)·tan(bw·π/2)`,
`gb = 1/sqrt 2`, `bw = w0/Q`. -/

/-- The parameters stored by `NotchFilter.__init__`. -/
structure NotchParams where
  f_notch : ℚ
  Q : ℚ
  fs : ℚ
deriving DecidableEq, Repr

/-- Code: `NotchFilter(f_notch, Q, fs)` construction.  The constructor
performs no validation of its own, but three untyped crashes can occur,
in execution order: `w0 = 2*np.pi*f_notch/fs` (line 63) raises
`ZeroDivisionError` when `fs = 0`; `bandwidth_hz = f_notch/Q` (line 68)
raises `ZeroDivisionError` when `Q = 0`; and scipy `iirnotch` (line 71)
raises `ValueError` when the normalized frequency `2*f_notch/fs` lies
outside `[0, 1]`. -/
def NotchFilter.init (f_notch Q fs : ℚ) : Except AnalysisError NotchParams :=
  if fs = 0 then .error .zeroDivisionError
  else if Q = 0 then .error .zeroDivisionError
  else if 1 < 2 * f_notch / fs ∨ 2 * f_notch / fs < 0 then .error .valueError
  else .ok ⟨f_notch, Q, fs⟩

open Real in
/-- scipy `iirnotch`: digital notch frequency `w0·π` (radians/sample). -/
noncomputable def notchW0 (f_notch fs : ℝ) : ℝ := 2 * f_notch / fs * π

open Real in
/-- scipy `iirnotch`: `beta = (sqrt(1-gb^2)/gb) * tan((w0/Q)*π/2)` with
`gb = 1/sqrt 2`. -/
noncomputable def notchBeta (f_notch Q fs : ℝ) : ℝ :=
  (Real.sqrt (1 - (1 / Real.sqrt 2) ^ 2) / (1 / Real.sqrt 2)) *
    Real.tan (2 * f_notch / fs / Q * π / 2)

/-- scipy `iirnotch`: `gain = 1/(1+beta)`. -/
noncomputable def notchGain (f_notch Q fs : ℝ) : ℝ := 1 / (1 + notchBeta f_notch Q fs)

open Real Complex in
/-- Code: `NotchFilter.frequency_response` via `signal.freqz(b, a, worN=f, fs=fs)`:
the rational transfer function evaluated at `z = e^(-jω)`, `ω = 2π f / fs`,
with the `iirnotch` coefficients. -/
noncomputable def notchH (f_notch Q fs f : ℝ) : ℂ :=
  let ω : ℝ := 2 * π * f / fs
  let z : ℂ := Complex.exp (-Complex.I * ω)
  let g : ℂ := (notchGain f_notch Q fs : ℝ)
  let c : ℂ := (Real.cos (notchW0 f_notch fs) : ℝ)
  (g * (1 - 2 * c * z + z ^ 2)) / (1 - 2 * g * c * z + (2 * g - 1) * z ^ 2)

/-! ## Polyphase FIR upsampler (PolyphaseFIRUpsampler, lines 89-148)

`h = L * firwin(num_taps, cutoff/(fs_out/2), window=('kaiser', 8.5),
scale=True)` with `fs_out = fs_in * L`.  `firwin` builds a windowed-sinc
low-pass and, with `scale=True`, divides by the tap sum so the DC gain is
exactly one; the Kaiser window is the zeroth-order modified Bessel
function ratio `I0(β·sqrt(1-((n-α)/α)²))/I0(β)`, `α=(N-1)/2`. -/

/-- Zeroth-order modified Bessel function of the first kind, from its
defining power series `I0(x) = Σ (x/2)^(2n)/(n!)²`. -/
noncomputable def besselI0 (x : ℝ) : ℝ :=
  tsum fun n : ℕ => (x / 2) ^ (2 * n) / ((n.factorial : ℝ)) ^ 2

/-- The symmetric Kaiser window of length `N` with shape `β`. -/
noncomputable def kaiserWin (β : ℝ) (N n : ℕ) : ℝ :=
  besselI0 (β * Real.sqrt (1 - (2 * (n : ℝ) / ((N : ℝ) - 1) - 1) ^ 2)) / besselI0 β

open Real in
/-- numpy's normalized `sinc`: `sin(πx)/(πx)` with `sinc 0 = 1`. -/
noncomputable def sincf (x : ℝ) : ℝ :=
  if x = 0 then 1 else Real.sin (π * x) / (π * x)

/-- Code: `firwin` before scaling: `h[n] = c·sinc(c·(n - (N-1)/2)) · win[n]`
for a low-pass with normalized cutoff `c`. -/
noncomputable def firwinRaw (N : ℕ) (c β : ℝ) (n : ℕ) : ℝ :=
  c * sincf (c * ((n : ℝ) - ((N : ℝ) - 1) / 2)) * kaiserWin β N n

/-- Code: `firwin` with `scale=True`: taps divided by their sum (unity DC gain). -/
noncomputable def firwinTaps (N : ℕ) (c β : ℝ) (n : ℕ) : ℝ :=
  firwinRaw N c β n / ∑ k ∈ Finset.range N, firwinRaw N c β k

/-- The stored taps `self.h = L * firwin(...)` (lines 115-120), with the
hard-coded Kaiser `beta = 8.5` and cutoff normalized to the output rate:
`cutoff_hz / (fs_out/2)`, `fs_out = fs_in * L`. -/
noncomputable def upsamplerTaps (L N : ℕ) (cutoff_hz fs_in : ℝ) (n : ℕ) : ℝ :=
  (L : ℝ) * firwinTaps N (cutoff_hz / (fs_in * (L : ℝ) / 2)) 8.5 n

/-- The parameters stored by `PolyphaseFIRUpsampler.__init__`. -/
structure UpsamplerParams where
  L : ℕ
  num_taps : ℕ
  cutoff_hz : ℚ
  fs_in : ℚ
deriving DecidableEq, Repr

/-- Code: `PolyphaseFIRUpsampler(L, num_taps, cutoff_hz, fs_in)`
construction.  No validation of its own: computing the normalized
cutoff `cutoff_hz / (fs_out/2)` (line 105) raises `ZeroDivisionError`
when `fs_out = fs_in * L` is zero, and scipy `firwin`'s cutoff range
check (`0 < cutoff_normalized < 1`) fails with an untyped `ValueError`. -/
def PolyphaseFIRUpsampler.init (L num_taps : ℕ) (cutoff_hz fs_in : ℚ) :
    Except AnalysisError UpsamplerParams :=
  if fs_in * L / 2 = 0 then .error .zeroDivisionError
  else if cutoff_hz / (fs_in * L / 2) ≤ 0 ∨ 1 ≤ cutoff_hz / (fs_in * L / 2) then
    .error .valueError
  else .ok ⟨L, num_taps, cutoff_hz, fs_in⟩

open Real Complex in
/-- Code: `PolyphaseFIRUpsampler.frequency_response` via
`signal.freqz(h, 1, worN=f, fs=fs_out)`: the FIR polynomial in
`e^(-jω)` with `ω = 2π f / fs_out`. -/
noncomputable def upsamplerH (L N : ℕ) (cutoff_hz fs_in f : ℝ) : ℂ :=
  ∑ n ∈ Finset.range N,
    (upsamplerTaps L N cutoff_hz fs_in n : ℂ) *
      Complex.exp (-Complex.I * (2 * π * f / (fs_in * (L : ℝ))) * (n : ℝ))

/-! ## Cascade (analyze_cascade, lines 155-189) -/

/-- The spec's `cascade(stages)` contract, of which line 171's
`H_total = H1 * H2 * H3` is the three-stage instance: the pointwise
complex product of an ordered list of per-stage responses at one grid
point. -/
def cascadeResponse (rs : List ℂ) : ℂ := rs.prod

/-- The dictionary returned by `analyze_cascade` at one grid point
(lines 179-189; the magnitude/phase series entries, per point). -/
structure CascadeResult where
  H1 : ℂ
  H2 : ℂ
  H3 : ℂ
  H_total : ℂ
  mag_linear : ℝ
  mag_db : EReal
  phase_rad : ℝ

/-- Embedding of `analyze_cascade(frequencies, fs)` at a single grid
frequency `f`: the three hard-wired stages (lines 160-163), their product
(line 171) and the derived magnitude/phase values (lines 174-177). -/
noncomputable def analyze_cascade (f fs : ℝ) : CascadeResult :=
  let H1 := preemphH preemphGain preemphAlpha f fs
  let H2 := notchH 19000 25 fs f
  let H3 := upsamplerH 4 96 15000 fs f
  let Ht := H1 * H2 * H3
  { H1 := H1
    H2 := H2
    H3 := H3
    H_total := Ht
    mag_linear := Complex.abs Ht
    mag_db := magDB (Complex.abs Ht)
    phase_rad := Complex.arg Ht }

/-! ## Theorems -/

/-- C2 — The quality classifier maps `ripple_db` to a grade via
half-open, lower-inclusive bands: `[0, 0.1) ↦ EXCELLENT`,
`[0.1, 0.5) ↦ VERY_GOOD`, `[0.5, 1.0) ↦ GOOD`, `[1.0, 2.0) ↦ FAIR`,
`[2.0, ∞) ↦ POOR`; in particular `0.1 ↦ VERY_GOOD`, `0.5 ↦ GOOD` and
`2.0 ↦ POOR`. -/
theorem classify_quality_bands :
    (∀ r : ℚ, 0 ≤ r →
      ((classifyQuality r = .EXCELLENT ↔ r < 0.1) ∧
       (classifyQuality r = .VERY_GOOD ↔ 0.1 ≤ r ∧ r < 0.5) ∧
       (classifyQuality r = .GOOD ↔ 0.5 ≤ r ∧ r < 1) ∧
       (classifyQuality r = .FAIR ↔ 1 ≤ r ∧ r < 2) ∧
       (classifyQuality r = .POOR ↔ 2 ≤ r))) ∧
    classifyQuality 0.1 = .VERY_GOOD ∧
    classifyQuality 0.5 = .GOOD ∧
    classifyQuality 2 = .POOR := by
  refine ⟨fun r _ => ?_, by norm_num [classifyQuality], by norm_num [classifyQuality],
    by norm_num [classifyQuality]⟩
  unfold classifyQuality
  split_ifs with h1 h2 h3 h4 <;>
    refine ⟨?_, ?_, ?_, ?_, ?_⟩ <;> constructor <;> intro h <;>
    first
      | rfl
      | (exact absurd h (by decide))
      | (constructor <;> linarith)
      | linarith

/-- Witness for C2 at `r = 3/10`: discharges the `0 ≤ r` hypothesis. -/
theorem classify_quality_bands_witness :
    classifyQuality (3 / 10) = .VERY_GOOD ↔ (0.1 : ℚ) ≤ 3 / 10 ∧ (3 / 10 : ℚ) < 0.5 :=
  (classify_quality_bands.1 (3 / 10) (by norm_num)).2.1

/-- C10 — The classifier is a total function: every rational input,
including negative values violating the `ripple_db ≥ 0` invariant, gets
exactly one grade, and every value strictly below `0.1` (in particular
every negative value) is classified `EXCELLENT`. -/
theorem classify_quality_total :
    (∀ r : ℚ, r < 0.1 → classifyQuality r = .EXCELLENT) ∧
    (∀ r : ℚ, ∃! g, classifyQuality r = g) := by
  constructor
  · intro r h
    unfold classifyQuality
    rw [if_pos h]
  · intro r
    exact ⟨classifyQuality r, rfl, fun g h => h.symm⟩

/-- Witness for C10 at the negative input `r = -5`. -/
theorem classify_quality_total_witness :
    classifyQuality (-5) = .EXCELLENT :=
  classify_quality_total.1 (-5) (by norm_num)

/-- C5 (counterexample) — The claim says construction with
out-of-domain parameters (notch `Q ≤ 0`; upsampler `L < 2`) fails with an
`InvalidParameter` error at construction time.  It is false: the
constructors perform no validation, so `NotchFilter(19000, Q=-25, 48000)`
and `PolyphaseFIRUpsampler(L=1, N=96, 15000, 48000)` both construct
successfully (and the one `Q ≤ 0` value that does fail, `Q = 0`, crashes
with an untyped `ZeroDivisionError`, not `InvalidParameter`). -/
theorem construct_validation_cex :
    NotchFilter.init 19000 (-25) 48000 = .ok ⟨19000, -25, 48000⟩ ∧
    PolyphaseFIRUpsampler.init 1 96 15000 48000 = .ok ⟨1, 96, 15000, 48000⟩ ∧
    NotchFilter.init 19000 0 48000 = .error .zeroDivisionError := by
  refine ⟨?_, ?_, ?_⟩
  · unfold NotchFilter.init
    rw [if_neg (by norm_num), if_neg (by norm_num), if_neg]
    norm_num
  · unfold PolyphaseFIRUpsampler.init
    rw [if_neg (by norm_num), if_neg]
    norm_num
  · unfold NotchFilter.init
    rw [if_neg (by norm_num), if_pos rfl]

/-- C5 (amended) — Filter construction performs no domain validation:
the notch constructor accepts every `Q ≠ 0` (in particular every negative
`Q`) when the center frequency is in range, while `Q = 0` crashes with an
untyped `ZeroDivisionError` from `bandwidth_hz = f_notch/Q` (line 68);
the upsampler constructor accepts every `L ≥ 1` (including `L < 2`) and
every tap count `N` (including `N < 1`) with the analysed cutoff; the
only other construction-time failure is scipy's untyped `ValueError` on
an out-of-range normalized frequency (e.g. a notch center above `fs/2`).
No typed `InvalidParameter` error exists anywhere. -/
theorem construct_no_validation :
    (∀ Q : ℚ, Q ≠ 0 → NotchFilter.init 19000 Q 48000 = .ok ⟨19000, Q, 48000⟩) ∧
    (∀ f fs : ℚ, fs ≠ 0 → NotchFilter.init f 0 fs = .error .zeroDivisionError) ∧
    (∀ L N : ℕ, 0 < L →
      PolyphaseFIRUpsampler.init L N 15000 48000 = .ok ⟨L, N, 15000, 48000⟩) ∧
    (∀ f fs Q : ℚ, 0 < fs → Q ≠ 0 → fs / 2 < f →
      NotchFilter.init f Q fs = .error .valueError) := by
  refine ⟨fun Q hQ => ?_, fun f fs hfs => ?_, fun L N hL => ?_,
    fun f fs Q hfs hQ hf => ?_⟩
  · unfold NotchFilter.init
    rw [if_neg (by norm_num), if_neg hQ, if_neg]
    norm_num
  · unfold NotchFilter.init
    rw [if_neg hfs, if_pos rfl]
  · unfold PolyphaseFIRUpsampler.init
    have hL1 : (1 : ℚ) ≤ (L : ℚ) := by exact_mod_cast hL
    have hden : (0 : ℚ) < 48000 * (L : ℚ) / 2 := by positivity
    rw [if_neg (ne_of_gt hden), if_neg]
    push_neg
    constructor
    · exact div_pos (by norm_num) hden
    · rw [div_lt_one hden]
      nlinarith
  · unfold NotchFilter.init
    rw [if_neg (ne_of_gt hfs), if_neg hQ, if_pos]
    left
    rw [lt_div_iff₀ hfs]
    linarith

/-- Witness for C5 (amended): a `Q = -25` notch and an `L = 1`, `N = 0`
upsampler construct, `Q = 0` crashes with the untyped
`ZeroDivisionError`, and a notch centered above Nyquist fails with the
untyped `ValueError`. -/
theorem construct_no_validation_witness :
    NotchFilter.init 19000 (-25) 48000 = .ok ⟨19000, -25, 48000⟩ ∧
    NotchFilter.init 19000 0 48000 = .error .zeroDivisionError ∧
    PolyphaseFIRUpsampler.init 1 0 15000 48000 = .ok ⟨1, 0, 15000, 48000⟩ ∧
    NotchFilter.init 30000 25 48000 = .error .valueError :=
  ⟨construct_no_validation.1 (-25) (by norm_num),
   construct_no_validation.2.1 19000 48000 (by norm_num),
   construct_no_validation.2.2.1 1 0 (by norm_num),
   construct_no_validation.2.2.2 30000 48000 25 (by norm_num) (by norm_num)
     (by norm_num)⟩

/-- C4 (counterexample) — The claim says an empty passband selection
fails with a typed `InvalidRange` error.  It is false: with
`mag_db = [1]`, `frequencies = [5]` and band `[10, 20]` the selection is
empty and the operation fails with numpy's untyped `ValueError`
(`np.max` of an empty array), which is a crash, not `InvalidRange`. -/
theorem ripple_empty_band_cex :
    compute_passband_ripple [1] [5] 10 20 = .error .valueError ∧
    AnalysisError.valueError ≠ AnalysisError.invalidRange := by
  refine ⟨?_, by decide⟩
  have h : passbandSelect [1] [5] 10 20 = [] := by
    simp [passbandSelect]
    norm_num
  simp [compute_passband_ripple, h]

/-- C4 (amended) — For every magnitude series, grid and passband such
that no grid point satisfies `f_min ≤ f ≤ f_max`, the ripple operation
fails — but with numpy's untyped `ValueError` raised by `np.max` on the
empty selection (an unhandled crash), not with a typed `InvalidRange`
error. -/
theorem ripple_empty_band (mag_db freqs : List ℚ) (f_min f_max : ℚ)
    (h : passbandSelect mag_db freqs f_min f_max = []) :
    compute_passband_ripple mag_db freqs f_min f_max = .error .valueError := by
  simp [compute_passband_ripple, h]

/-- Witness for C4 (amended) at `mag_db = [1]`, `freqs = [5]`,
band `[10, 20]`. -/
theorem ripple_empty_band_witness :
    passbandSelect [1] [5] 10 20 = [] ∧
    compute_passband_ripple [1] [5] 10 20 = .error .valueError := by
  have h : passbandSelect [1] [5] 10 20 = [] := by
    simp [passbandSelect]
    norm_num
  exact ⟨h, ripple_empty_band [1] [5] 10 20 h⟩

/-- In the descending tuple order, an earlier element has the larger (or
equal) ripple value. -/
theorem tupleDescLe_fst {p q : ℚ × String} (h : tupleDescLe p q) : q.1 ≤ p.1 := by
  rcases h with h | ⟨h, _⟩
  · exact h.le
  · exact h.le

/-- On a full ripple tie the tuple sort orders the stages by descending
name: Upsampler FIR, Pre-emphasis filter, Notch filter. -/
theorem rank_full_tie (r : ℚ) :
    rankContributors r r r =
      [(r, "Upsampler FIR"), (r, "Pre-emphasis filter"), (r, "Notch filter")] := by
  have hsNU : ¬ (("Upsampler FIR" : String) ≤ "Notch filter") := by
    rw [String.le_iff_toList_le]; decide
  have hsPU : ¬ (("Upsampler FIR" : String) ≤ "Pre-emphasis filter") := by
    rw [String.le_iff_toList_le]; decide
  have hsPN : (("Notch filter" : String) ≤ "Pre-emphasis filter") := by
    rw [String.le_iff_toList_le]; decide
  have hNU : ¬ tupleDescLe (r, "Notch filter") (r, "Upsampler FIR") := by
    rintro (h | ⟨-, h⟩)
    · exact absurd h (lt_irrefl r)
    · exact absurd h hsNU
  have hPU : ¬ tupleDescLe (r, "Pre-emphasis filter") (r, "Upsampler FIR") := by
    rintro (h | ⟨-, h⟩)
    · exact absurd h (lt_irrefl r)
    · exact absurd h hsPU
  have hPN : tupleDescLe (r, "Pre-emphasis filter") (r, "Notch filter") := by
    unfold tupleDescLe
    exact Or.inr ⟨rfl, hsPN⟩
  simp [rankContributors, stageRipples, List.insertionSort, List.orderedInsert,
    hNU, hPU, hPN]

/-- On a full ripple tie the spec's stable ripple-only sort keeps the
original stage order. -/
theorem rankSpecStable_tie (r : ℚ) :
    rankSpecStable r r r =
      [(r, "Pre-emphasis filter"), (r, "Notch filter"), (r, "Upsampler FIR")] := by
  simp [rankSpecStable, stageRipples, List.insertionSort, List.orderedInsert]

/-- C9 (counterexample) — The claim says ripple ties are broken by
original stage order (stable sort).  It is false: `ripples.sort(reverse=True)`
sorts the `(ripple, name)` *tuples*, so on equal ripples the stage names
are compared in descending order.  With all three ripples equal to `0` the
code reports "Upsampler FIR" as the primary limiter, while a stable sort
by ripple alone (`rankSpecStable`, the spec's ranking) would report
"Pre-emphasis filter". -/
theorem rank_tiebreak_cex :
    rankContributors 0 0 0 =
      [(0, "Upsampler FIR"), (0, "Pre-emphasis filter"), (0, "Notch filter")] ∧
    rankSpecStable 0 0 0 =
      [(0, "Pre-emphasis filter"), (0, "Notch filter"), (0, "Upsampler FIR")] ∧
    (rankContributors 0 0 0).head? ≠ (rankSpecStable 0 0 0).head? := by
  refine ⟨rank_full_tie 0, rankSpecStable_tie 0, ?_⟩
  intro h
  rw [rank_full_tie 0, rankSpecStable_tie 0] at h
  simp at h

/-- C9 (amended) — The dominant-contributor ranking sorts the three
stage `(ripple_db, name)` pairs in descending order of `ripple_db`, with
ties broken by *descending stage name* (Python tuple comparison inside
`sort(reverse=True)`), not by original stage order; the first entry of the
sorted sequence — reported as the primary limiter — always carries the
maximum ripple value.  In a full tie the reported order is
Upsampler FIR, Pre-emphasis filter, Notch filter. -/
theorem rank_contributors_ranking :
    (∀ r1 r2 r3 : ℚ,
      (rankContributors r1 r2 r3).Perm (stageRipples r1 r2 r3) ∧
      (rankContributors r1 r2 r3).Sorted tupleDescLe ∧
      ∃ p, (rankContributors r1 r2 r3).head? = some p ∧
        p.1 = max r1 (max r2 r3)) ∧
    (∀ r : ℚ, rankContributors r r r =
      [(r, "Upsampler FIR"), (r, "Pre-emphasis filter"), (r, "Notch filter")]) := by
  constructor
  · intro r1 r2 r3
    have hperm : (rankContributors r1 r2 r3).Perm (stageRipples r1 r2 r3) :=
      List.perm_insertionSort _ _
    have hsort : (rankContributors r1 r2 r3).Sorted tupleDescLe :=
      List.sorted_insertionSort _ _
    refine ⟨hperm, hsort, ?_⟩
    have hlen : (rankContributors r1 r2 r3).length = 3 := by
      rw [hperm.length_eq]; rfl
    obtain ⟨p, rest, hcons⟩ : ∃ p rest, rankContributors r1 r2 r3 = p :: rest := by
      cases h : rankContributors r1 r2 r3 with
      | nil => rw [h] at hlen; simp at hlen
      | cons p rest => exact ⟨p, rest, rfl⟩
    have hrel : ∀ q ∈ rest, tupleDescLe p q := by
      have := hsort
      rw [hcons, List.sorted_cons] at this
      exact this.1
    have hbound : ∀ t ∈ stageRipples r1 r2 r3, t.1 ≤ p.1 := by
      intro t ht
      have : t ∈ p :: rest := by
        rw [← hcons]
        exact hperm.mem_iff.2 ht
      rcases List.mem_cons.1 this with h | h
      · exact le_of_eq (congrArg Prod.fst h)
      · exact tupleDescLe_fst (hrel t h)
    have hpmem : p ∈ stageRipples r1 r2 r3 := by
      have : p ∈ rankContributors r1 r2 r3 := by
        rw [hcons]; exact List.mem_cons_self _ _
      exact hperm.mem_iff.1 this
    refine ⟨p, by rw [hcons]; rfl, ?_⟩
    have h1 : r1 ≤ p.1 := hbound (r1, "Pre-emphasis filter") (by simp [stageRipples])
    have h2 : r2 ≤ p.1 := hbound (r2, "Notch filter") (by simp [stageRipples])
    have h3 : r3 ≤ p.1 := hbound (r3, "Upsampler FIR") (by simp [stageRipples])
    have hup : p.1 ≤ max r1 (max r2 r3) := by
      simp only [stageRipples, List.mem_cons, List.not_mem_nil, or_false] at hpmem
      rcases hpmem with h | h | h <;> rw [h] <;> simp [le_max_iff]
    exact le_antisymm hup (max_le h1 (max_le h2 h3))
  · exact rank_full_tie

/-! ### Fold-based max/min lemmas for `np.max`/`np.min` -/

theorem le_foldl_max : ∀ (xs : List ℚ) (a x : ℚ), x = a ∨ x ∈ xs → x ≤ xs.foldl max a
  | [], _, _, h => by
      rcases h with rfl | h
      · exact le_rfl
      · simp at h
  | y :: ys, a, x, h => by
      rw [List.foldl_cons]
      rcases h with rfl | h
      · exact le_trans (le_max_left x y) (le_foldl_max ys (max x y) _ (Or.inl rfl))
      · rcases List.mem_cons.1 h with rfl | h
        · exact le_trans (le_max_right a x) (le_foldl_max ys (max a x) _ (Or.inl rfl))
        · exact le_foldl_max ys (max a y) x (Or.inr h)

theorem foldl_max_choice : ∀ (xs : List ℚ) (a : ℚ), xs.foldl max a = a ∨ xs.foldl max a ∈ xs
  | [], _ => Or.inl rfl
  | y :: ys, a => by
      rw [List.foldl_cons]
      rcases foldl_max_choice ys (max a y) with h | h
      · rcases max_choice a y with hm | hm
        · exact Or.inl (by rw [h, hm])
        · exact Or.inr (by rw [h, hm]; exact List.mem_cons_self _ _)
      · exact Or.inr (List.mem_cons_of_mem _ h)

theorem foldl_min_le : ∀ (xs : List ℚ) (a x : ℚ), x = a ∨ x ∈ xs → xs.foldl min a ≤ x
  | [], _, _, h => by
      rcases h with rfl | h
      · exact le_rfl
      · simp at h
  | y :: ys, a, x, h => by
      rw [List.foldl_cons]
      rcases h with rfl | h
      · exact le_trans (foldl_min_le ys (min x y) _ (Or.inl rfl)) (min_le_left x y)
      · rcases List.mem_cons.1 h with rfl | h
        · exact le_trans (foldl_min_le ys (min a x) _ (Or.inl rfl)) (min_le_right a x)
        · exact foldl_min_le ys (min a y) x (Or.inr h)

theorem foldl_min_choice : ∀ (xs : List ℚ) (a : ℚ), xs.foldl min a = a ∨ xs.foldl min a ∈ xs
  | [], _ => Or.inl rfl
  | y :: ys, a => by
      rw [List.foldl_cons]
      rcases foldl_min_choice ys (min a y) with h | h
      · rcases min_choice a y with hm | hm
        · exact Or.inl (by rw [h, hm])
        · exact Or.inr (by rw [h, hm]; exact List.mem_cons_self _ _)
      · exact Or.inr (List.mem_cons_of_mem _ h)

/-- Code: `np.max` of a nonempty array is attained. -/
theorem qmax_mem : ∀ (l : List ℚ), l ≠ [] → qmax l ∈ l
  | [], h => absurd rfl h
  | x :: xs, _ => by
      show List.foldl max x xs ∈ x :: xs
      rcases foldl_max_choice xs x with h | h
      · rw [h]; exact List.mem_cons_self _ _
      · exact List.mem_cons_of_mem _ h

/-- Code: `np.max` of a nonempty array dominates every element. -/
theorem le_qmax : ∀ (l : List ℚ) (x : ℚ), x ∈ l → x ≤ qmax l
  | [], _, hx => by simp at hx
  | y :: ys, x, hx => by
      unfold qmax
      rcases List.mem_cons.1 hx with rfl | h
      · exact le_foldl_max ys x x (Or.inl rfl)
      · exact le_foldl_max ys y x (Or.inr h)

/-- Code: `np.min` of a nonempty array is attained. -/
theorem qmin_mem : ∀ (l : List ℚ), l ≠ [] → qmin l ∈ l
  | [], h => absurd rfl h
  | x :: xs, _ => by
      show List.foldl min x xs ∈ x :: xs
      rcases foldl_min_choice xs x with h | h
      · rw [h]; exact List.mem_cons_self _ _
      · exact List.mem_cons_of_mem _ h

/-- Code: `np.min` of a nonempty array is below every element. -/
theorem qmin_le : ∀ (l : List ℚ) (x : ℚ), x ∈ l → qmin l ≤ x
  | [], _, hx => by simp at hx
  | y :: ys, x, hx => by
      unfold qmin
      rcases List.mem_cons.1 hx with rfl | h
      · exact foldl_min_le ys x x (Or.inl rfl)
      · exact foldl_min_le ys y x (Or.inr h)

/-- C3 (counterexample) — The claim says the ripple report contains the
frequencies at which the in-band max and min occur.  It is false: the
dictionary returned by `compute_passband_ripple` has no such entries, and
the max-location frequency the program actually prints
(`freq_sweep[np.argmax(mag_sweep)]`, over the *full* series) can lie
outside the passband: with `freqs = [10, 30]`, `mag_db = [5, 1]` and band
`[20, 40]`, the in-band maximum (first occurrence) is at `30`, but the
reported frequency is `10`, which is not even an in-band grid point. -/
theorem ripple_maxfreq_cex :
    maxFreqReported [10, 30] [5, 1] = 10 ∧
    specMaxFreqInBand [5, 1] [10, 30] 20 40 = some 30 ∧
    (10 : ℚ) ∉ (passbandSelect [5, 1] [10, 30] 20 40).map Prod.fst ∧
    (10 : ℚ) ≠ 30 := by
  have hsel : passbandSelect [5, 1] [10, 30] 20 40 = [(30, 1)] := by
    simp [passbandSelect]
    norm_num
  refine ⟨rfl, ?_, ?_, by norm_num⟩
  · simp [specMaxFreqInBand, hsel, qmax, List.find?]
  · rw [hsel]
    norm_num

/-- C3 (amended) — For every magnitude series aligned with a grid and
every passband containing at least one grid point, the ripple computation
selects exactly the grid points with `f_min ≤ f ≤ f_max` (both ends
inclusive) and returns a report with `max_db` (attained and dominating),
`min_db` (attained and dominated), `mean_db`, the population standard
deviation `std_db`, `ripple_db = max_db − min_db ≥ 0`, and the selected
passband frequency and magnitude series; the report does *not* contain
the frequencies at which the max and min occur. -/
theorem ripple_report_correct (mag_db freqs : List ℚ) (f_min f_max : ℚ)
    (hne : passbandSelect mag_db freqs f_min f_max ≠ []) :
    ∃ r : RippleReport,
      compute_passband_ripple mag_db freqs f_min f_max = .ok r ∧
      (∀ p : ℚ × ℚ, p ∈ passbandSelect mag_db freqs f_min f_max ↔
        p ∈ freqs.zip mag_db ∧ f_min ≤ p.1 ∧ p.1 ≤ f_max) ∧
      r.passband_freqs = (passbandSelect mag_db freqs f_min f_max).map Prod.fst ∧
      r.passband_mag_db = (passbandSelect mag_db freqs f_min f_max).map Prod.snd ∧
      r.mag_max_db ∈ r.passband_mag_db ∧
      (∀ x ∈ r.passband_mag_db, x ≤ r.mag_max_db) ∧
      r.mag_min_db ∈ r.passband_mag_db ∧
      (∀ x ∈ r.passband_mag_db, r.mag_min_db ≤ x) ∧
      r.ripple_db = r.mag_max_db - r.mag_min_db ∧
      0 ≤ r.ripple_db ∧
      r.mag_mean_db = r.passband_mag_db.sum / r.passband_mag_db.length ∧
      r.mag_std_db = Real.sqrt ((((r.passband_mag_db.map fun x =>
        (x - r.mag_mean_db) ^ 2).sum : ℚ) : ℝ) / r.passband_mag_db.length) := by
  have hpm : (passbandSelect mag_db freqs f_min f_max).map Prod.snd ≠ [] := by
    simpa using hne
  have hEmpty : ¬ ((passbandSelect mag_db freqs f_min f_max).isEmpty = true) := by
    simpa [List.isEmpty_iff] using hne
  have hok : compute_passband_ripple mag_db freqs f_min f_max = .ok
      { ripple_db := qmax ((passbandSelect mag_db freqs f_min f_max).map Prod.snd) -
          qmin ((passbandSelect mag_db freqs f_min f_max).map Prod.snd)
        mag_max_db := qmax ((passbandSelect mag_db freqs f_min f_max).map Prod.snd)
        mag_min_db := qmin ((passbandSelect mag_db freqs f_min f_max).map Prod.snd)
        mag_mean_db := qmean ((passbandSelect mag_db freqs f_min f_max).map Prod.snd)
        mag_std_db := qstd ((passbandSelect mag_db freqs f_min f_max).map Prod.snd)
        passband_freqs := (passbandSelect mag_db freqs f_min f_max).map Prod.fst
        passband_mag_db := (passbandSelect mag_db freqs f_min f_max).map Prod.snd } := by
    unfold compute_passband_ripple
    rw [if_neg hEmpty]
  refine ⟨_, hok, ?_, rfl, rfl, qmax_mem _ hpm, fun x hx => le_qmax _ x hx,
    qmin_mem _ hpm, fun x hx => qmin_le _ x hx, rfl,
    sub_nonneg.2 (qmin_le _ _ (qmax_mem _ hpm)), rfl, rfl⟩
  intro p
  simp [passbandSelect, List.mem_filter]

/-- Witness for C3 (amended) at `mag_db = [0]`, `freqs = [0]`,
band `[0, 0]` (singleton selection). -/
theorem ripple_report_correct_witness :
    passbandSelect [0] [0] 0 0 ≠ [] ∧
    ∃ r : RippleReport,
      compute_passband_ripple [0] [0] 0 0 = .ok r ∧
      (∀ p : ℚ × ℚ, p ∈ passbandSelect [0] [0] 0 0 ↔
        p ∈ List.zip [0] [0] ∧ 0 ≤ p.1 ∧ p.1 ≤ 0) ∧
      r.passband_freqs = (passbandSelect [0] [0] 0 0).map Prod.fst ∧
      r.passband_mag_db = (passbandSelect [0] [0] 0 0).map Prod.snd ∧
      r.mag_max_db ∈ r.passband_mag_db ∧
      (∀ x ∈ r.passband_mag_db, x ≤ r.mag_max_db) ∧
      r.mag_min_db ∈ r.passband_mag_db ∧
      (∀ x ∈ r.passband_mag_db, r.mag_min_db ≤ x) ∧
      r.ripple_db = r.mag_max_db - r.mag_min_db ∧
      0 ≤ r.ripple_db ∧
      r.mag_mean_db = r.passband_mag_db.sum / r.passband_mag_db.length ∧
      r.mag_std_db = Real.sqrt ((((r.passband_mag_db.map fun x =>
        (x - r.mag_mean_db) ^ 2).sum : ℚ) : ℝ) / r.passband_mag_db.length) := by
  have h : passbandSelect [0] [0] 0 0 ≠ [] := by
    simp [passbandSelect]
  exact ⟨h, ripple_report_correct [0] [0] 0 0 h⟩

/-! ### Complex-exponential helpers -/

/-- Code: `e^(-jθ) = cos θ - j sin θ` for a real digital frequency `θ`. -/
theorem exp_neg_I_mul (θ : ℝ) :
    Complex.exp (-Complex.I * (θ : ℂ)) =
      ((Real.cos θ : ℝ) : ℂ) - ((Real.sin θ : ℝ) : ℂ) * Complex.I := by
  have h : -Complex.I * (θ : ℂ) = ((-θ : ℝ) : ℂ) * Complex.I := by
    push_cast
    ring
  rw [h, Complex.exp_mul_I, ← Complex.ofReal_cos, ← Complex.ofReal_sin, Real.cos_neg,
    Real.sin_neg]
  push_cast
  ring

/-- The notch filter's zeros sit on the unit circle at the notch frequency:
in exact arithmetic the response at the center frequency is exactly `0`. -/
theorem notch_center_zero : notchH 19000 25 48000 19000 = 0 := by
  simp only [notchH]
  rw [show notchW0 19000 48000 = 2 * Real.pi * 19000 / 48000 by unfold notchW0; ring]
  set ω : ℝ := 2 * Real.pi * 19000 / 48000 with hω
  rw [exp_neg_I_mul ω]
  have hsc : (Real.cos ω : ℂ) ^ 2 + (Real.sin ω : ℂ) ^ 2 = 1 := by
    have h2 : ((Real.cos ω) ^ 2 + (Real.sin ω) ^ 2 : ℝ) = 1 := Real.cos_sq_add_sin_sq ω
    exact_mod_cast congrArg (Complex.ofReal) h2
  have hnum : (1 : ℂ) - 2 * (Real.cos ω : ℂ) *
        ((Real.cos ω : ℂ) - (Real.sin ω : ℂ) * Complex.I) +
        ((Real.cos ω : ℂ) - (Real.sin ω : ℂ) * Complex.I) ^ 2 = 0 := by
    linear_combination (Real.sin ω : ℂ) ^ 2 * Complex.I_sq - hsc
  rw [hnum, mul_zero, zero_div]

/-- C6 (counterexample) — The claim says a magnitude of exactly zero is
clamped to a fixed dB floor (such as −300 dB) before the logarithm, so
that dB series contain only finite values.  It is false: the code applies
`20*log10` directly, so a zero magnitude produces `-inf`, not the clamped
floor `-300`. -/
theorem magdb_clamp_cex :
    magDB 0 = ⊥ ∧
    (⊥ : EReal) ≠ ((magDBClamped 0 : ℝ) : EReal) ∧
    magDBClamped 0 = -300 := by
  refine ⟨by simp [magDB], (EReal.bot_lt_coe _).ne, ?_⟩
  unfold magDBClamped
  rw [if_pos]
  norm_num

/-- C6 (amended) — No clamping is performed anywhere: the
magnitude-in-dB computation is `20·log10` of the magnitude, which is
finite for every positive magnitude but `-inf` for a magnitude of exactly
zero; and in exact arithmetic the notch filter's magnitude at its center
frequency *is* exactly zero, so the cascade's dB value at a grid point
containing the notch center is non-finite. -/
theorem magdb_no_clamp :
    (∀ x : ℝ, 0 < x → magDB x = ((20 * Real.logb 10 x : ℝ) : EReal) ∧ magDB x ≠ ⊥) ∧
    Complex.abs (notchH 19000 25 48000 19000) = 0 ∧
    (analyze_cascade 19000 48000).mag_db = ⊥ := by
  refine ⟨fun x hx => ?_, ?_, ?_⟩
  · unfold magDB
    rw [if_neg (ne_of_gt hx)]
    exact ⟨rfl, EReal.coe_ne_bot _⟩
  · rw [notch_center_zero]
    exact map_zero Complex.abs
  · simp only [analyze_cascade]
    rw [notch_center_zero, mul_zero, zero_mul, map_zero]
    simp [magDB]

/-- Witness for C6 (amended) at the positive magnitude `x = 1`. -/
theorem magdb_no_clamp_witness :
    magDB 1 = ((20 * Real.logb 10 1 : ℝ) : EReal) ∧ magDB 1 ≠ ⊥ :=
  magdb_no_clamp.1 1 (by norm_num)

/-- C1 (counterexample) — The claim says the cascade phase at each grid
point equals the sum of the per-stage phases modulo 2π, for *every*
ordered list of stage responses.  It is false when a stage response is
zero (which the notch stage attains at its center frequency): with the
response list `[-1, 0]` the cascade is `0` with phase `0`, while the
per-stage phases sum to `π ≢ 0 (mod 2π)`. -/
theorem cascade_phase_cex :
    ¬ (((cascadeResponse [(-1 : ℂ), 0]).arg : Real.Angle) =
        (([(-1 : ℂ), 0]).map fun z => ((Complex.arg z : ℝ) : Real.Angle)).sum) := by
  intro hcontra
  have h : cascadeResponse [(-1 : ℂ), 0] = 0 := by
    simp [cascadeResponse]
  rw [h] at hcontra
  simp [Complex.arg_zero, Complex.arg_neg_one] at hcontra
  exact Real.Angle.pi_ne_zero hcontra.symm

/-- C1 (amended) — The cascade response at each grid point is the
complex product of the per-stage responses in the given order
(`H_total = H1·H2·H3` being the three-stage instance), and the cascade
magnitude equals the product of the per-stage magnitudes at every point;
the cascade phase equals the sum of the per-stage phases modulo 2π at
every point at which *all* stage responses are nonzero (at a zero of some
stage the product has phase 0 regardless of the other stages). -/
theorem cascade_is_product :
    (∀ f fs : ℝ,
      (analyze_cascade f fs).H_total =
        cascadeResponse [(analyze_cascade f fs).H1, (analyze_cascade f fs).H2,
          (analyze_cascade f fs).H3] ∧
      (analyze_cascade f fs).mag_linear =
        Complex.abs (analyze_cascade f fs).H1 * Complex.abs (analyze_cascade f fs).H2 *
          Complex.abs (analyze_cascade f fs).H3) ∧
    (∀ rs : List ℂ, Complex.abs (cascadeResponse rs) = (rs.map Complex.abs).prod) ∧
    (∀ rs : List ℂ, (∀ z ∈ rs, z ≠ 0) →
      ((cascadeResponse rs).arg : Real.Angle) =
        (rs.map fun z => ((Complex.arg z : ℝ) : Real.Angle)).sum) := by
  refine ⟨fun f fs => ⟨?_, ?_⟩, fun rs => ?_, fun rs => ?_⟩
  · simp [analyze_cascade, cascadeResponse, mul_assoc]
  · simp [analyze_cascade, map_mul]
  · unfold cascadeResponse
    induction rs with
    | nil => simp
    | cons z zs ih => simp [List.prod_cons, map_mul, ih]
  · unfold cascadeResponse
    induction rs with
    | nil =>
        intro _
        simp [Complex.arg_one]
    | cons z zs ih =>
        intro hz
        have hz0 : z ≠ 0 := hz z (List.mem_cons_self _ _)
        have hzs : ∀ w ∈ zs, w ≠ 0 := fun w hw => hz w (List.mem_cons_of_mem _ hw)
        have hprod : zs.prod ≠ 0 := List.prod_ne_zero fun h0 => (hzs 0 h0) rfl
        rw [List.prod_cons, List.map_cons, List.sum_cons,
          Complex.arg_mul_coe_angle hz0 hprod, ih hzs]

/-- Witness for C1 (amended): the phase-additivity conjunct applied to the
nonzero single-stage list `[I]`. -/
theorem cascade_is_product_witness :
    ((cascadeResponse [Complex.I]).arg : Real.Angle) =
      (([Complex.I]).map fun z => ((Complex.arg z : ℝ) : Real.Angle)).sum :=
  cascade_is_product.2.2 [Complex.I] (by simp [Complex.I_ne_zero])

/-- Magnitude of the first-order FIR factor:
`|1 - a·e^(-jω)| = sqrt(1 - 2a·cos ω + a²)`. -/
theorem abs_one_sub_mul_exp (a ω : ℝ) :
    Complex.abs (1 - (a : ℂ) * Complex.exp (-Complex.I * (ω : ℂ))) =
      Real.sqrt (1 - 2 * a * Real.cos ω + a ^ 2) := by
  rw [exp_neg_I_mul ω]
  have h : (1 : ℂ) - (a : ℂ) * (((Real.cos ω : ℝ) : ℂ) - ((Real.sin ω : ℝ) : ℂ) * Complex.I) =
      ((1 - a * Real.cos ω : ℝ) : ℂ) + ((a * Real.sin ω : ℝ) : ℂ) * Complex.I := by
    push_cast
    ring
  rw [h, Complex.abs_add_mul_I]
  congr 1
  linear_combination (a ^ 2) * Real.sin_sq_add_cos_sq ω

/-- C7 — For every pre-emphasis filter with `gain > 0` and
`alpha ∈ (0,1)`, the magnitude response is strictly increasing on
`[0, fs/2]`: for all `0 ≤ f1 < f2 ≤ fs/2`, `|H(f1)| < |H(f2)|`. -/
theorem preemph_strictly_increasing (gain alpha fs f1 f2 : ℝ)
    (hg : 0 < gain) (ha0 : 0 < alpha) (_ha1 : alpha < 1) (hfs : 0 < fs)
    (hf1 : 0 ≤ f1) (h12 : f1 < f2) (hf2 : f2 ≤ fs / 2) :
    Complex.abs (preemphH gain alpha f1 fs) < Complex.abs (preemphH gain alpha f2 fs) := by
  have hπ := Real.pi_pos
  have h2π : (0 : ℝ) < 2 * Real.pi := by positivity
  have hω1 : (0 : ℝ) ≤ 2 * Real.pi * f1 / fs := by positivity
  have hωlt : 2 * Real.pi * f1 / fs < 2 * Real.pi * f2 / fs := by
    rw [div_lt_div_iff₀ hfs hfs]
    exact mul_lt_mul_of_pos_right (mul_lt_mul_of_pos_left h12 h2π) hfs
  have hω2π : 2 * Real.pi * f2 / fs ≤ Real.pi := by
    rw [div_le_iff₀ hfs]
    nlinarith [mul_nonneg hπ.le (sub_nonneg.2 hf2)]
  have hcos : Real.cos (2 * Real.pi * f2 / fs) < Real.cos (2 * Real.pi * f1 / fs) :=
    Real.cos_lt_cos_of_nonneg_of_le_pi hω1 hω2π hωlt
  have hc1 : Real.cos (2 * Real.pi * f1 / fs) ≤ 1 := Real.cos_le_one _
  simp only [preemphH]
  rw [map_mul, map_mul, Complex.abs_ofReal, abs_of_pos hg,
    abs_one_sub_mul_exp alpha (2 * Real.pi * f1 / fs),
    abs_one_sub_mul_exp alpha (2 * Real.pi * f2 / fs)]
  refine mul_lt_mul_of_pos_left (Real.sqrt_lt_sqrt ?_ ?_) hg
  · nlinarith [mul_nonneg ha0.le (sub_nonneg.2 hc1), sq_nonneg (1 - alpha)]
  · nlinarith [mul_lt_mul_of_pos_left hcos ha0]

/-- Witness for C7 at `gain = 3`, `alpha = 1/2`, `fs = 2`, `f1 = 0`,
`f2 = 1`. -/
theorem preemph_strictly_increasing_witness :
    Complex.abs (preemphH 3 (1 / 2) 0 2) < Complex.abs (preemphH 3 (1 / 2) 1 2) :=
  preemph_strictly_increasing 3 (1 / 2) 2 0 1 (by norm_num) (by norm_num) (by norm_num)
    (by norm_num) (by norm_num) (by norm_num) (by norm_num)

/-! ### Bessel-series lemmas for the Kaiser window -/

theorem besselI0_summable (x : ℝ) :
    Summable fun n : ℕ => (x / 2) ^ (2 * n) / ((n.factorial : ℝ)) ^ 2 := by
  refine Summable.of_nonneg_of_le (fun n => ?_) (fun n => ?_)
    (Real.summable_pow_div_factorial ((x / 2) ^ 2))
  · rw [pow_mul]
    positivity
  · rw [pow_mul]
    have hp : (0 : ℝ) < (n.factorial : ℝ) := by exact_mod_cast n.factorial_pos
    have h1 : (1 : ℝ) ≤ (n.factorial : ℝ) := by exact_mod_cast n.factorial_pos
    have h2 : (n.factorial : ℝ) ≤ ((n.factorial : ℝ)) ^ 2 := by nlinarith
    gcongr

/-- Code: `I0` is everywhere positive (every series term is nonnegative and the
`n = 0` term is `1`). -/
theorem besselI0_pos (x : ℝ) : 0 < besselI0 x := by
  unfold besselI0
  refine tsum_pos (besselI0_summable x) (fun n => ?_) 0 ?_
  · rw [pow_mul]
    positivity
  · norm_num

/-- Code: `I0 0 = 1`. -/
theorem besselI0_zero : besselI0 0 = 1 := by
  unfold besselI0
  rw [tsum_eq_single 0]
  · norm_num
  · intro n hn
    rw [zero_div, zero_pow (by omega : 2 * n ≠ 0)]
    simp

/-- The degenerate one-tap `firwin` kernel: the single raw tap is
`c / I0 β` (sinc at the center is `1`, Kaiser window of length 1). -/
theorem firwinRaw_one (c β : ℝ) : firwinRaw 1 c β 0 = c / besselI0 β := by
  unfold firwinRaw kaiserWin sincf
  norm_num [besselI0_zero]
  ring

/-- C8 — The upsampler's FIR taps are `firwin` taps (normalised to
unit DC sum) scaled by `L`: whenever the raw windowed-sinc tap sum is
nonzero (the non-degenerate case; with `scale=True` `firwin` divides by
that sum), the final taps sum *exactly* to `L`, hence approximate `L`
within 1% relative tolerance — the DC gain compensates the zero-insertion
amplitude loss of `L`-fold upsampling. -/
theorem upsampler_dc_gain (L N : ℕ) (cutoff_hz fs_in : ℝ)
    (hS : ∑ n ∈ Finset.range N,
      firwinRaw N (cutoff_hz / (fs_in * (L : ℝ) / 2)) 8.5 n ≠ 0) :
    (∑ n ∈ Finset.range N, upsamplerTaps L N cutoff_hz fs_in n) = (L : ℝ) ∧
    |(∑ n ∈ Finset.range N, upsamplerTaps L N cutoff_hz fs_in n) - (L : ℝ)| ≤
      (L : ℝ) / 100 := by
  have h : (∑ n ∈ Finset.range N, upsamplerTaps L N cutoff_hz fs_in n) = (L : ℝ) := by
    unfold upsamplerTaps firwinTaps
    rw [← Finset.mul_sum, ← Finset.sum_div, div_self hS, mul_one]
  refine ⟨h, ?_⟩
  rw [h, sub_self, abs_zero]
  positivity

/-- Witness for C8 at `L = 4` with the degenerate one-tap kernel
(`N = 1`, `cutoff = 1`, `fs_in = 1`), whose raw tap sum is the provably
nonzero value `(1/2)/I0(8.5)`. -/
theorem upsampler_dc_gain_witness :
    (∑ n ∈ Finset.range 1,
      firwinRaw 1 ((1 : ℝ) / (1 * ((4 : ℕ) : ℝ) / 2)) 8.5 n ≠ 0) ∧
    (∑ n ∈ Finset.range 1, upsamplerTaps 4 1 1 1 n) = ((4 : ℕ) : ℝ) := by
  have hsum : ∑ n ∈ Finset.range 1,
      firwinRaw 1 ((1 : ℝ) / (1 * ((4 : ℕ) : ℝ) / 2)) 8.5 n =
        (1 / 2) / besselI0 8.5 := by
    rw [Finset.sum_range_one, firwinRaw_one]
    norm_num
  have hS : ∑ n ∈ Finset.range 1,
      firwinRaw 1 ((1 : ℝ) / (1 * ((4 : ℕ) : ℝ) / 2)) 8.5 n ≠ 0 := by
    rw [hsum]
    exact ne_of_gt (div_pos (by norm_num) (besselI0_pos 8.5))
  exact ⟨hS, (upsampler_dc_gain 4 1 1 1 hS).1⟩

end FreqResp
